import Mathlib

/-!
# Loan client (`client/client.go`): shallow embedding and verified properties

The Go program provisions an identity into a wallet, connects to a Fabric
gateway, drives one loan through `ApplyForLoan`, `ApproveLoan`,
`MakeRepayment` and `CheckLoanBalance`, and decodes the query result.

Everything outside the program (file system, process environment, wallet
storage, gateway, contract) is an explicit `Env` of results, one per external
call; the program itself is a function from an `Env` to the list of external
calls it issues and the way the process ends.
-/

set_option autoImplicit false

namespace LoanClient

/-! ## Data model -/

/-- Go `error` values the program can hold. -/
inductive GoError where
  /-- An error returned by the OS, the SDK or the contract, with its message. -/
  | ext (msg : String)
  /-- The value of `fmt.Errorf(msg)`, an error made by the program itself. -/
  | errorf (msg : String)
  /-- A `*json.SyntaxError`: the payload is not JSON text. -/
  | jsonSyntax
  /-- A `*json.UnmarshalTypeError` for the named struct field
  (the empty name: the top-level value). -/
  | jsonType (field : String)
  deriving DecidableEq, Repr

/-- An X.509 identity as built by `gateway.NewX509Identity(mspid, cert, key)`. -/
structure Identity where
  mspID : String
  cert : String
  key : String
  deriving DecidableEq, Repr

/-- The call `gateway.NewX509Identity`. -/
def NewX509Identity (mspid cert key : String) : Identity := ⟨mspid, cert, key⟩

/-- A wallet: the identity stored under each label (one file per label in the
file-system wallet), `none` where the label is absent. -/
structure Wallet where
  ids : String → Option Identity

/-- The call `wallet.Exists(label)`. -/
def Wallet.Exists (w : Wallet) (label : String) : Bool := (w.ids label).isSome

/-- The wallet after a successful store of `id` under `label`: the entry is
written, replacing what the label held. -/
def Wallet.bind (w : Wallet) (label : String) (id : Identity) : Wallet :=
  ⟨fun l => if l = label then some id else w.ids l⟩

/-- A JSON number token: Go keeps the literal and converts it per target type. -/
inductive JNumber where
  /-- A literal without fraction or exponent, such as `12` or `-3`. -/
  | int (n : Int)
  /-- A literal with a fraction or an exponent, `mant * 10 ^ exp`, such as
  `5.5` (`55`, `-1`) or `1e3` (`1`, `3`). -/
  | dec (mant : Int) (exp : Int)
  deriving DecidableEq, Repr

/-- A parsed JSON text; an object keeps its members in order, duplicates included. -/
inductive JSON where
  | null
  | bool (b : Bool)
  | num (n : JNumber)
  | str (s : String)
  | arr (xs : List JSON)
  | obj (kvs : List (String × JSON))

/-- The bytes returned by the contract, read as JSON text: `none` when the
bytes are not a JSON text. -/
abbrev Payload := Option JSON

/-- The Go `float64` operations the program uses, kept abstract: the zero value,
`strconv.ParseFloat(literal, 64)` (`none`: out of range) and the `%f` verb. -/
structure Float64Sem where
  F : Type
  zero : F
  parseFloat : JNumber → Option F
  formatF : F → String

/-- A Go `[]float64` value that is not nil: its elements (`elems`), and the
values an earlier, longer content left in its backing array past its length
(`spare`); the backing array holds the zero value everywhere else. -/
structure FloatSlice (F : Type) where
  elems : List F
  spare : List F

/-- The struct `Loan` (lines 15-24). `Repayments` is a slice: `none` is the nil slice. -/
structure Loan (F : Type) where
  LoanID : String
  ApplicantName : String
  LoanAmount : F
  TermMonths : Int
  InterestRate : F
  Outstanding : F
  Status : String
  Repayments : Option (FloatSlice F)

/-- The value of `var loan Loan`: every field at its zero value. -/
def Loan.zero (fs : Float64Sem) : Loan fs.F :=
  ⟨"", "", fs.zero, 0, fs.zero, fs.zero, "", none⟩

/-- Whether a contract call is `SubmitTransaction` or `EvaluateTransaction`. -/
inductive CallKind where
  | submit
  | evaluate
  deriving DecidableEq, Repr

/-- One contract call: its kind, the transaction name and the string arguments. -/
structure Call where
  kind : CallKind
  name : String
  args : List String
  deriving DecidableEq, Repr

/-- An abstract contract: given the calls already issued on it in this run
and the next call, the bytes it returns or the error message. -/
abbrev Contract := List Call → Call → Except String Payload

/-- The results of every external call the program makes. -/
structure Env where
  /-- Result of `os.Setenv("DISCOVERY_AS_LOCALHOST", "true")`: the error, if any. -/
  setenvErr : Option String
  /-- The process environment at start: `none` for an unset variable. -/
  vars : String → Option String
  /-- Result of `gateway.NewFileSystemWallet("wallet")`. -/
  newWallet : Except String Wallet
  /-- Result of `os.ReadFile(path)`. -/
  readFile : String → Except String String
  /-- Result of `os.ReadDir(path)`: the names of the entries. -/
  readDir : String → Except String (List String)
  /-- Result of the wallet store writing an entry: the error, if any. -/
  putErr : Option String
  /-- Result of `gateway.Connect` with the given wallet. -/
  connect : Wallet → Except String Unit
  /-- Result of `gw.GetNetwork(name)`. -/
  getNetwork : String → Except String Unit
  /-- The contract behind `network.GetContract(chaincode)` on a channel. -/
  contract : String → String → Contract

/-- An external call issued by the program, in the order issued. -/
inductive Event where
  | put (label : String) (id : Identity)
  | connect (ok : Bool)
  | getNetwork (name : String) (ok : Bool)
  | getContract (name : String)
  | call (c : Call) (ok : Bool)
  | unmarshal (ok : Bool)
  | print (text : String)
  | close
  deriving DecidableEq, Repr

/-- How the process ends: `main` returns, or `log.Fatalf(format, err)` is called. -/
inductive Exit where
  | returned
  | fatal (format : String) (err : GoError)
  deriving DecidableEq, Repr

/-- A run: the external calls issued and how the process ended. -/
structure Run where
  events : List Event
  exit : Exit
  deriving DecidableEq, Repr

/-- The run `r` preceded by the calls `evs`. -/
def Run.after (evs : List Event) (r : Run) : Run := ⟨evs ++ r.events, r.exit⟩

/-! ## `populateWallet` (lines 114-152) -/

/-- The value of `filepath.Join(parts...)` for non-empty parts that are already
clean, as all parts in this program are: the parts joined by the separator. -/
def filepathJoin (parts : List String) : String := "/".intercalate parts

/-- The variable `credPath` (lines 115-125). -/
def credPath : String :=
  filepathJoin ["..", "fabric-samples", "test-network", "organizations",
    "peerOrganizations", "org1.example.com", "users", "User1@org1.example.com", "msp"]

/-- The variable `certPath` (line 127). -/
def certPath : String := filepathJoin [credPath, "signcerts", "cert.pem"]

/-- The variable `keyDir` (line 134). -/
def keyDir : String := filepathJoin [credPath, "keystore"]

/-- The call `wallet.Put(label, id)`: the store writes the entry or fails. -/
def Wallet.Put (env : Env) (w : Wallet) (label : String) (id : Identity) :
    Option GoError × Wallet :=
  match env.putErr with
  | some e => (some (.ext e), w)
  | none => (none, w.bind label id)

/-- What a call that returns `error` and may update the wallet leaves behind. -/
structure WalletResult where
  err : Option GoError
  wallet : Wallet
  events : List Event

/-- The function `populateWallet` (lines 114-152). -/
def populateWallet (env : Env) (wallet : Wallet) : WalletResult :=
  match env.readFile certPath with
  | .error e => ⟨some (.ext e), wallet, []⟩
  | .ok cert =>
    match env.readDir keyDir with
    | .error e => ⟨some (.ext e), wallet, []⟩
    | .ok files =>
      if h : files.length ≠ 1 then
        ⟨some (.errorf "keystore folder should have contain one file"), wallet, []⟩
      else
        let keyPath := filepathJoin [keyDir, files.get ⟨0, by omega⟩]
        match env.readFile keyPath with
        | .error e => ⟨some (.ext e), wallet, []⟩
        | .ok key =>
          let identity := NewX509Identity "Org1MSP" cert key
          let r := wallet.Put env "appUser" identity
          ⟨r.1, r.2, [.put "appUser" identity]⟩

/-- Lines 37-42 of `main`: populate the wallet unless it holds `appUser`. -/
def provision (env : Env) (wallet : Wallet) : WalletResult :=
  if !wallet.Exists "appUser" then populateWallet env wallet
  else ⟨none, wallet, []⟩

/-! ## Decoding the query result: `json.Unmarshal(result, &loan)` (lines 105-106)

The behaviour of `encoding/json` on the struct `Loan`, which has no field tags
and no custom decoder: an object member sets the field its key names, exactly
or else ignoring case; a member naming no field is skipped; a field no member
names keeps its value; `null` leaves a field as it is (a slice becomes nil);
an array is decoded into the elements the slice already holds; a value of the
wrong JSON type is an `UnmarshalTypeError`. The decoder records
the first type error and goes on, then returns it: since `main` uses the
struct only when `err == nil`, the model returns the error alone. -/

/-- The fields of `Loan`. -/
inductive Field where
  | LoanID
  | ApplicantName
  | LoanAmount
  | TermMonths
  | InterestRate
  | Outstanding
  | Status
  | Repayments
  deriving DecidableEq, Repr

/-- The JSON key of a field: its Go name, the struct having no tags. -/
def Field.name : Field → String
  | .LoanID => "LoanID"
  | .ApplicantName => "ApplicantName"
  | .LoanAmount => "LoanAmount"
  | .TermMonths => "TermMonths"
  | .InterestRate => "InterestRate"
  | .Outstanding => "Outstanding"
  | .Status => "Status"
  | .Repayments => "Repayments"

/-- The fields in declaration order. -/
def Field.all : List Field :=
  [.LoanID, .ApplicantName, .LoanAmount, .TermMonths, .InterestRate, .Outstanding,
   .Status, .Repayments]

/-- Case folding of one character of a key against an ASCII field name: ASCII
letters fold to lower case, and the only two non-ASCII characters that fold to
an ASCII letter are the Kelvin sign (to `k`) and the long s (to `s`). -/
def foldChar (c : Char) : Char :=
  if c = Char.ofNat 0x212A then 'k'
  else if c = Char.ofNat 0x017F then 's'
  else c.toLower

/-- A name folded for the case-insensitive comparison. -/
def foldName (s : String) : List Char := s.toList.map foldChar

/-- The field an object key sets: the field of exactly that name, else the
first field whose name equals the key ignoring case, else none. -/
def lookupField (key : String) : Option Field :=
  match Field.all.find? (fun f => f.name == key) with
  | some f => some f
  | none => Field.all.find? (fun f => foldName f.name == foldName key)

/-- Width of the Go type `int` (a 64-bit platform). -/
def intBits : Nat := 64

/-- Decoding a JSON value into a `string` field holding `cur`. -/
def decodeString (field : String) (v : JSON) (cur : String) : Except GoError String :=
  match v with
  | .str s => .ok s
  | .null => .ok cur
  | _ => .error (.jsonType field)

/-- Decoding a JSON value into a `float64` field holding `cur`. -/
def decodeFloat (fs : Float64Sem) (field : String) (v : JSON) (cur : fs.F) :
    Except GoError fs.F :=
  match v with
  | .num n =>
    match fs.parseFloat n with
    | some x => .ok x
    | none => .error (.jsonType field)
  | .null => .ok cur
  | _ => .error (.jsonType field)

/-- Decoding a JSON value into an `int` field holding `cur`: the literal must
be an integer literal (`strconv.ParseInt`) within the range of `int`. -/
def decodeInt (field : String) (v : JSON) (cur : Int) : Except GoError Int :=
  match v with
  | .num (.int n) =>
    if -(2 : Int) ^ (intBits - 1) ≤ n ∧ n < (2 : Int) ^ (intBits - 1) then .ok n
    else .error (.jsonType field)
  | .num (.dec _ _) => .error (.jsonType field)
  | .null => .ok cur
  | _ => .error (.jsonType field)

/-- The elements of a JSON array decoded one by one into the elements of a
slice whose backing array holds `backing` and the zero value past it: each
element is decoded into the value its position holds. -/
def decodeElems (fs : Float64Sem) (field : String) : List JSON → List fs.F →
    Except GoError (List fs.F)
  | [], _ => .ok []
  | x :: xs, backing =>
    match decodeFloat fs field x (backing.headD fs.zero) with
    | .error e => .error e
    | .ok y =>
      match decodeElems fs field xs backing.tail with
      | .error e => .error e
      | .ok ys => .ok (y :: ys)

/-- Decoding a JSON value into a `[]float64` field holding `cur`. An empty
array gives a new empty slice. Any other array is decoded element by element
into the backing array of `cur`, the slice growing with zero values where the
array is longer, and the length is then set to the number of elements: what
the backing array held past that length stays there. `null` gives the nil
slice. -/
def decodeFloatSlice (fs : Float64Sem) (field : String) (v : JSON)
    (cur : Option (FloatSlice fs.F)) : Except GoError (Option (FloatSlice fs.F)) :=
  match v with
  | .arr [] => .ok (some ⟨[], []⟩)
  | .arr xs =>
    let backing :=
      match cur with
      | none => []
      | some s => s.elems ++ s.spare
    (decodeElems fs field xs backing).map (fun ys => some ⟨ys, backing.drop xs.length⟩)
  | .null => .ok none
  | _ => .error (.jsonType field)

/-- One object member decoded into the struct. -/
def setField (fs : Float64Sem) (loan : Loan fs.F) (key : String) (v : JSON) :
    Except GoError (Loan fs.F) :=
  match lookupField key with
  | none => .ok loan
  | some .LoanID =>
    (decodeString "LoanID" v loan.LoanID).map (fun x => { loan with LoanID := x })
  | some .ApplicantName =>
    (decodeString "ApplicantName" v loan.ApplicantName).map
      (fun x => { loan with ApplicantName := x })
  | some .LoanAmount =>
    (decodeFloat fs "LoanAmount" v loan.LoanAmount).map (fun x => { loan with LoanAmount := x })
  | some .TermMonths =>
    (decodeInt "TermMonths" v loan.TermMonths).map (fun x => { loan with TermMonths := x })
  | some .InterestRate =>
    (decodeFloat fs "InterestRate" v loan.InterestRate).map
      (fun x => { loan with InterestRate := x })
  | some .Outstanding =>
    (decodeFloat fs "Outstanding" v loan.Outstanding).map
      (fun x => { loan with Outstanding := x })
  | some .Status =>
    (decodeString "Status" v loan.Status).map (fun x => { loan with Status := x })
  | some .Repayments =>
    (decodeFloatSlice fs "Repayments" v loan.Repayments).map
      (fun x => { loan with Repayments := x })

/-- The members of an object decoded in order into `loan`. -/
def unmarshalObject (fs : Float64Sem) (kvs : List (String × JSON)) (loan : Loan fs.F) :
    Except GoError (Loan fs.F) :=
  kvs.foldlM (fun l kv => setField fs l kv.1 kv.2) loan

/-- The call `json.Unmarshal(data, &loan)` on `var loan Loan`: the decoded
struct when the error is nil, else the error. -/
def unmarshal (fs : Float64Sem) (data : Payload) : Except GoError (Loan fs.F) :=
  match data with
  | none => .error .jsonSyntax
  | some (.obj kvs) => unmarshalObject fs kvs (Loan.zero fs)
  | some .null => .ok (Loan.zero fs)
  | some _ => .error (.jsonType "")

/-- A JSON value of the JSON type the Go type of the field calls for: a
string for a `string` field, a number in range for a `float64` field, an
integer literal in range for the `int` field, an array of such numbers for
the `[]float64` field. -/
def wellTyped (fs : Float64Sem) : Field → JSON → Bool
  | .LoanID, .str _ => true
  | .ApplicantName, .str _ => true
  | .Status, .str _ => true
  | .LoanAmount, .num n => (fs.parseFloat n).isSome
  | .InterestRate, .num n => (fs.parseFloat n).isSome
  | .Outstanding, .num n => (fs.parseFloat n).isSome
  | .TermMonths, .num (.int n) =>
    decide (-(2 : Int) ^ (intBits - 1) ≤ n ∧ n < (2 : Int) ^ (intBits - 1))
  | .Repayments, .arr xs =>
    xs.all (fun x =>
      match x with
      | .num n => (fs.parseFloat n).isSome
      | _ => false)
  | _, _ => false

/-- An object member that names no field, or names one and is well-typed for it. -/
def memberWellTyped (fs : Float64Sem) (kv : String × JSON) : Bool :=
  match lookupField kv.1 with
  | some f => wellTyped fs f kv.2
  | none => true

/-! ## `main` (lines 26-112) -/

/-- The process environment after `os.Setenv(k, v)`. -/
def setenv (vars : String → Option String) (k v : String) : String → Option String :=
  fun x => if x = k then some v else vars x

/-- The call `os.Getenv(k)`: the value, or the empty string when unset. -/
def getenv (vars : String → Option String) (k : String) : String := (vars k).getD ""

/-- The variable `channelName` (lines 63-66). -/
def channelName (vars : String → Option String) : String :=
  let cname := getenv vars "CHANNEL_NAME"
  if cname ≠ "" then cname else "mychannel"

/-- The variable `chaincodeName` (lines 73-76). -/
def chaincodeName (vars : String → Option String) : String :=
  let ccname := getenv vars "CHAINCODE_NAME"
  if ccname ≠ "" then ccname else "loan"

/-- The call of line 81. -/
def applyCall : Call := ⟨.submit, "ApplyForLoan", ["loan1", "John Doe", "5000", "12", "5.5"]⟩

/-- The call of line 87. -/
def approveCall : Call := ⟨.submit, "ApproveLoan", ["loan1", "Approved"]⟩

/-- The call of line 93. -/
def repayCall : Call := ⟨.submit, "MakeRepayment", ["loan1", "1000"]⟩

/-- The call of line 100. -/
def balanceCall : Call := ⟨.evaluate, "CheckLoanBalance", ["loan1"]⟩

/-- The four calls of the flow, in program order. -/
def flowCalls : List Call := [applyCall, approveCall, repayCall, balanceCall]

/-- The output of `fmt.Println(msg)`. -/
def println (msg : String) : Event := .print (msg ++ "\n")

/-- Lines 105-111: decode the query result and print the balance. -/
def report (fs : Float64Sem) (result : Payload) : Run :=
  match unmarshal fs result with
  | .error e => ⟨[.unmarshal false], .fatal "Failed to unmarshal loan: %v" e⟩
  | .ok loan =>
    ⟨[.unmarshal true, .print ("Outstanding Balance: " ++ fs.formatF loan.Outstanding ++ "\n")],
      .returned⟩

/-- Lines 80-111: the four contract calls, each checked before the next. -/
def flow (fs : Float64Sem) (c : Contract) : Run :=
  match c [] applyCall with
  | .error e => ⟨[.call applyCall false], .fatal "Failed to apply for loan: %v" (.ext e)⟩
  | .ok _ =>
    Run.after [.call applyCall true, println "Loan successfully applied"] <|
    match c [applyCall] approveCall with
    | .error e => ⟨[.call approveCall false], .fatal "Failed to approve loan: %v" (.ext e)⟩
    | .ok _ =>
      Run.after [.call approveCall true, println "Loan status updated to Approved"] <|
      match c [applyCall, approveCall] repayCall with
      | .error e =>
        ⟨[.call repayCall false], .fatal "Failed to make repayment for loan: %v" (.ext e)⟩
      | .ok _ =>
        Run.after [.call repayCall true,
          println "Repayment recorded. Outstanding balance updated."] <|
        match c [applyCall, approveCall, repayCall] balanceCall with
        | .error e =>
          ⟨[.call balanceCall false], .fatal "Failed to get loan balance: %v" (.ext e)⟩
        | .ok result => Run.after [.call balanceCall true] (report fs result)

/-- Lines 63-111: resolve the network and the contract, then run the flow. The
environment read is the one left by the `os.Setenv` of line 27. -/
def session (fs : Float64Sem) (env : Env) : Run :=
  let vars := setenv env.vars "DISCOVERY_AS_LOCALHOST" "true"
  match env.getNetwork (channelName vars) with
  | .error e =>
    ⟨[.getNetwork (channelName vars) false], .fatal "Failed to get network: %v" (.ext e)⟩
  | .ok _ =>
    Run.after [.getNetwork (channelName vars) true, .getContract (chaincodeName vars)]
      (flow fs (env.contract (channelName vars) (chaincodeName vars)))

/-- The statement `defer d` in front of the rest `r` of a function body: `d` runs
when the function returns. `log.Fatalf` ends the process through `os.Exit(1)`,
which does not run deferred calls. -/
def deferred (d : Event) (r : Run) : Run :=
  match r.exit with
  | .returned => ⟨r.events ++ [d], .returned⟩
  | .fatal format err => ⟨r.events, .fatal format err⟩

/-- The function `main` (lines 26-112). -/
def main (fs : Float64Sem) (env : Env) : Run :=
  match env.setenvErr with
  | some e =>
    ⟨[], .fatal "Error setting DISCOVERY_AS_LOCALHOST environment variable: %v" (.ext e)⟩
  | none =>
    match env.newWallet with
    | .error e => ⟨[], .fatal "Failed to create wallet: %v" (.ext e)⟩
    | .ok wallet =>
      let p := provision env wallet
      match p.err with
      | some e => ⟨p.events, .fatal "Failed to populate wallet contents: %v" e⟩
      | none =>
        match env.connect p.wallet with
        | .error e =>
          ⟨p.events ++ [.connect false], .fatal "Failed to connect to gateway: %v" (.ext e)⟩
        | .ok _ => Run.after (p.events ++ [.connect true]) (deferred .close (session fs env))

/-! ## Observations on a run -/

/-- The contract calls of a list of events, each with whether it succeeded. -/
def contractCalls : List Event → List (Call × Bool)
  | [] => []
  | .call c ok :: rest => (c, ok) :: contractCalls rest
  | _ :: rest => contractCalls rest

/-- How many times the session was closed. -/
def closeCount (evs : List Event) : Nat := evs.count .close

/-! ## Concrete inputs used to evaluate the definitions -/

/-- A reading of `float64` for evaluating examples: a literal denotes the
decimal number `mant * 10 ^ exp`, kept as the pair `(mant, exp)`. -/
def decimalFloat : Float64Sem where
  F := Int × Int
  zero := (0, 0)
  parseFloat := fun n =>
    match n with
    | .int k => some (k, 0)
    | .dec m e => some (m, e)
  formatF := fun x => toString x.1 ++ "e" ++ toString x.2

/-- The wallet with no entry. -/
def emptyWallet : Wallet := ⟨fun _ => none⟩

/-- A credential bundle with the certificate and one key file `priv_sk`. -/
def bundleReadFile (path : String) : Except String String :=
  if path = certPath then .ok "CERT"
  else if path = filepathJoin [keyDir, "priv_sk"] then .ok "KEY"
  else .error "no such file"

/-- The keystore directory of the bundle, holding the given entries. -/
def keystoreReadDir (files : List String) (path : String) : Except String (List String) :=
  if path = keyDir then .ok files else .error "no such directory"

/-- The members of the record `CheckLoanBalance` returns after the three submits. -/
def loanMembers : List (String × JSON) :=
  [("LoanID", .str "loan1"), ("ApplicantName", .str "John Doe"),
    ("LoanAmount", .num (.int 5000)), ("TermMonths", .num (.int 12)),
    ("InterestRate", .num (.dec 55 (-1))), ("Outstanding", .num (.int 4000)),
    ("Status", .str "Approved"), ("Repayments", .arr [.num (.int 1000)])]

/-- The record `CheckLoanBalance` returns after the three submits. -/
def loanRecord : JSON := .obj loanMembers

/-- The struct `loanRecord` decodes into. -/
def decodedLoan : Loan decimalFloat.F :=
  { LoanID := "loan1", ApplicantName := "John Doe", LoanAmount := (5000, 0), TermMonths := 12,
    InterestRate := (55, -1), Outstanding := (4000, 0), Status := "Approved",
    Repayments := some ⟨[(1000, 0)], []⟩ }

/-- A contract on which every call succeeds; the query returns `loanRecord`. -/
def acceptingContract : Contract :=
  fun _ c => if c = balanceCall then .ok (some loanRecord) else .ok (some .null)

/-- A contract like `acceptingContract` on which the call named `failing` fails. -/
def rejectingContract (failing : String) : Contract :=
  fun hist c => if c.name = failing then .error "rejected" else acceptingContract hist c

/-- An environment in which every external call succeeds. -/
def happyEnv : Env where
  setenvErr := none
  vars := fun _ => none
  newWallet := .ok emptyWallet
  readFile := bundleReadFile
  readDir := keystoreReadDir ["priv_sk"]
  putErr := none
  connect := fun _ => .ok ()
  getNetwork := fun _ => .ok ()
  contract := fun _ _ => acceptingContract

/-- The environment `happyEnv` with `GetNetwork` failing. -/
def networkDownEnv : Env := { happyEnv with getNetwork := fun _ => .error "channel not found" }

/-- The environment `happyEnv` with `CHANNEL_NAME` set to the empty string. -/
def emptyChannelEnv : Env :=
  { happyEnv with vars := fun k => if k = "CHANNEL_NAME" then some "" else none }

/-- The environment `happyEnv` with `CHANNEL_NAME` set and `CHAINCODE_NAME` unset. -/
def namedChannelEnv : Env :=
  { happyEnv with vars := fun k => if k = "CHANNEL_NAME" then some "loans" else none }

/-- The environment `happyEnv` with a keystore whose single entry cannot be
read as a file (a subdirectory, say). -/
def unreadableKeyEnv : Env :=
  { happyEnv with
    readFile := fun path => if path = certPath then .ok "CERT" else .error "is a directory" }

/-- The environment `happyEnv` with a contract on which the balance query fails. -/
def unknownLoanEnv : Env :=
  { happyEnv with contract := fun _ _ => rejectingContract "CheckLoanBalance" }

/-- The members of `loanRecord` without `Outstanding`. -/
def membersWithoutOutstanding : List (String × JSON) :=
  [("LoanID", .str "loan1"), ("ApplicantName", .str "John Doe"),
    ("LoanAmount", .num (.int 5000)), ("TermMonths", .num (.int 12)),
    ("InterestRate", .num (.dec 55 (-1))), ("Status", .str "Approved"),
    ("Repayments", .arr [.num (.int 1000)])]

/-! ## The runs of `main`, path by path -/

/-- The channel name `main` computes in the environment `env`. -/
def Env.channel (env : Env) : String :=
  channelName (setenv env.vars "DISCOVERY_AS_LOCALHOST" "true")

/-- The chaincode name `main` computes in the environment `env`. -/
def Env.chaincode (env : Env) : String :=
  chaincodeName (setenv env.vars "DISCOVERY_AS_LOCALHOST" "true")

/-- The contract `main` calls in the environment `env`. -/
def Env.loanContract (env : Env) : Contract := env.contract env.channel env.chaincode

/-- The calls `main` issues up to a successful `gateway.Connect`, from wallet `w`. -/
def connected (env : Env) (w : Wallet) : List Event :=
  (provision env w).events ++ [.connect true]

/-- The program reaches line 61 with the wallet `w`: the steps up to
`gateway.Connect` succeed. -/
def ReachesSession (env : Env) (w : Wallet) : Prop :=
  env.setenvErr = none ∧ env.newWallet = .ok w ∧ (provision env w).err = none ∧
    ∃ u, env.connect (provision env w).wallet = .ok u

/-- The program reaches line 80 with the wallet `w`: it reaches line 61 and
`GetNetwork` succeeds. -/
def ReachesFlow (env : Env) (w : Wallet) : Prop :=
  ReachesSession env w ∧ ∃ u, env.getNetwork env.channel = .ok u

/-- The calls `main` issues up to line 80. -/
def resolved (env : Env) (w : Wallet) : List Event :=
  connected env w ++ [.getNetwork env.channel true, .getContract env.chaincode]

/-- The paths through `main`: for each way the external calls can turn out, the
calls issued and the way the process ends. `main_run` shows that `main`
always takes one of them. -/
inductive MainRun (fs : Float64Sem) (env : Env) : Run → Prop where
  | setenvFailed (e : String) (h : env.setenvErr = some e) :
    MainRun fs env
      ⟨[], .fatal "Error setting DISCOVERY_AS_LOCALHOST environment variable: %v" (.ext e)⟩
  | walletFailed (e : String) (h0 : env.setenvErr = none) (h : env.newWallet = .error e) :
    MainRun fs env ⟨[], .fatal "Failed to create wallet: %v" (.ext e)⟩
  | provisionFailed (w : Wallet) (e : GoError) (h0 : env.setenvErr = none)
      (hw : env.newWallet = .ok w) (h : (provision env w).err = some e) :
    MainRun fs env
      ⟨(provision env w).events, .fatal "Failed to populate wallet contents: %v" e⟩
  | connectFailed (w : Wallet) (e : String) (h0 : env.setenvErr = none)
      (hw : env.newWallet = .ok w) (hp : (provision env w).err = none)
      (h : env.connect (provision env w).wallet = .error e) :
    MainRun fs env
      ⟨(provision env w).events ++ [.connect false],
        .fatal "Failed to connect to gateway: %v" (.ext e)⟩
  | networkFailed (w : Wallet) (e : String) (hs : ReachesSession env w)
      (h : env.getNetwork env.channel = .error e) :
    MainRun fs env
      ⟨connected env w ++ [.getNetwork env.channel false],
        .fatal "Failed to get network: %v" (.ext e)⟩
  | applyFailed (w : Wallet) (e : String) (hf : ReachesFlow env w)
      (h : env.loanContract [] applyCall = .error e) :
    MainRun fs env
      ⟨resolved env w ++ [.call applyCall false],
        .fatal "Failed to apply for loan: %v" (.ext e)⟩
  | approveFailed (w : Wallet) (e : String) (hf : ReachesFlow env w)
      (h : env.loanContract [applyCall] approveCall = .error e) :
    MainRun fs env
      ⟨resolved env w ++ [.call applyCall true, println "Loan successfully applied",
          .call approveCall false],
        .fatal "Failed to approve loan: %v" (.ext e)⟩
  | repayFailed (w : Wallet) (e : String) (hf : ReachesFlow env w)
      (h : env.loanContract [applyCall, approveCall] repayCall = .error e) :
    MainRun fs env
      ⟨resolved env w ++ [.call applyCall true, println "Loan successfully applied",
          .call approveCall true, println "Loan status updated to Approved",
          .call repayCall false],
        .fatal "Failed to make repayment for loan: %v" (.ext e)⟩
  | balanceFailed (w : Wallet) (e : String) (hf : ReachesFlow env w)
      (h : env.loanContract [applyCall, approveCall, repayCall] balanceCall = .error e) :
    MainRun fs env
      ⟨resolved env w ++ [.call applyCall true, println "Loan successfully applied",
          .call approveCall true, println "Loan status updated to Approved",
          .call repayCall true, println "Repayment recorded. Outstanding balance updated.",
          .call balanceCall false],
        .fatal "Failed to get loan balance: %v" (.ext e)⟩
  | decodeFailed (w : Wallet) (result : Payload) (e : GoError) (hf : ReachesFlow env w)
      (h : env.loanContract [applyCall, approveCall, repayCall] balanceCall = .ok result)
      (hu : unmarshal fs result = .error e) :
    MainRun fs env
      ⟨resolved env w ++ [.call applyCall true, println "Loan successfully applied",
          .call approveCall true, println "Loan status updated to Approved",
          .call repayCall true, println "Repayment recorded. Outstanding balance updated.",
          .call balanceCall true, .unmarshal false],
        .fatal "Failed to unmarshal loan: %v" e⟩
  | finished (w : Wallet) (result : Payload) (loan : Loan fs.F) (hf : ReachesFlow env w)
      (h : env.loanContract [applyCall, approveCall, repayCall] balanceCall = .ok result)
      (hu : unmarshal fs result = .ok loan) :
    MainRun fs env
      ⟨resolved env w ++ [.call applyCall true, println "Loan successfully applied",
          .call approveCall true, println "Loan status updated to Approved",
          .call repayCall true, println "Repayment recorded. Outstanding balance updated.",
          .call balanceCall true, .unmarshal true,
          .print ("Outstanding Balance: " ++ fs.formatF loan.Outstanding ++ "\n"), .close],
        .returned⟩

/-! ## `main` follows one of its paths -/

theorem main_run (fs : Float64Sem) (env : Env) : MainRun fs env (main fs env) := by
  unfold main
  split
  · rename_i e h
    exact .setenvFailed e h
  · rename_i h0
    split
    · rename_i e h
      exact .walletFailed e h0 h
    · rename_i w hw
      dsimp only
      split
      · rename_i e h
        exact .provisionFailed w e h0 hw h
      · rename_i hp
        split
        · rename_i e h
          exact .connectFailed w e h0 hw hp h
        · rename_i u hc
          have hs : ReachesSession env w := ⟨h0, hw, hp, u, hc⟩
          unfold session
          dsimp only
          split
          · rename_i e h
            simpa [deferred, Run.after, connected] using MainRun.networkFailed w e hs h
          · rename_i u2 hn
            have hf : ReachesFlow env w := ⟨hs, u2, hn⟩
            unfold flow
            split
            · rename_i e h
              simpa [deferred, Run.after, connected, resolved] using MainRun.applyFailed w e hf h
            · split
              · rename_i e h
                simpa [deferred, Run.after, connected, resolved] using
                  MainRun.approveFailed w e hf h
              · split
                · rename_i e h
                  simpa [deferred, Run.after, connected, resolved] using
                    MainRun.repayFailed w e hf h
                · split
                  · rename_i e h
                    simpa [deferred, Run.after, connected, resolved] using
                      MainRun.balanceFailed w e hf h
                  · rename_i result h
                    unfold report
                    split
                    · rename_i e hu
                      simpa [deferred, Run.after, connected, resolved] using
                        MainRun.decodeFailed w result e hf h hu
                    · rename_i loan hu
                      simpa [deferred, Run.after, connected, resolved] using
                        MainRun.finished w result loan hf h hu


/-! ## Lemmas on the observations -/

theorem contractCalls_append (a b : List Event) :
    contractCalls (a ++ b) = contractCalls a ++ contractCalls b := by
  induction a with
  | nil => rfl
  | cons e rest ih => cases e <;> simp [contractCalls, ih]

theorem populateWallet_events (env : Env) (wallet : Wallet) :
    ∀ e ∈ (populateWallet env wallet).events, ∃ id, e = Event.put "appUser" id := by
  unfold populateWallet
  split
  · simp
  · split
    · simp
    · split
      · simp
      · dsimp only
        split <;> simp

theorem provision_events (env : Env) (wallet : Wallet) :
    ∀ e ∈ (provision env wallet).events, ∃ id, e = Event.put "appUser" id := by
  unfold provision
  split
  · exact populateWallet_events env wallet
  · simp

theorem contractCalls_puts (evs : List Event)
    (h : ∀ e ∈ evs, ∃ id, e = Event.put "appUser" id) : contractCalls evs = [] := by
  induction evs with
  | nil => rfl
  | cons e rest ih =>
    obtain ⟨id, rfl⟩ := h e (List.mem_cons_self _ _)
    simpa [contractCalls] using ih (fun x hx => h x (List.mem_cons_of_mem _ hx))

theorem contractCalls_provision (env : Env) (w : Wallet) :
    contractCalls (provision env w).events = [] :=
  contractCalls_puts _ (provision_events env w)

theorem contractCalls_connected (env : Env) (w : Wallet) :
    contractCalls (connected env w) = [] := by
  simp [connected, contractCalls_append, contractCalls_provision, contractCalls]

theorem contractCalls_resolved (env : Env) (w : Wallet) :
    contractCalls (resolved env w) = [] := by
  simp [resolved, contractCalls_append, contractCalls_connected, contractCalls]

theorem mem_connected (env : Env) (w : Wallet) (e : Event) :
    e ∈ connected env w ↔ (∃ id, e = .put "appUser" id ∧ e ∈ (provision env w).events) ∨
      e = .connect true := by
  constructor
  · intro h
    rcases List.mem_append.1 h with h | h
    · obtain ⟨id, hid⟩ := provision_events env w e h
      exact .inl ⟨id, hid, h⟩
    · exact .inr (by simpa using h)
  · rintro (⟨_, _, h⟩ | h)
    · exact List.mem_append.2 (.inl h)
    · exact List.mem_append.2 (.inr (by simp [h]))

theorem mem_resolved (env : Env) (w : Wallet) (e : Event) :
    e ∈ resolved env w ↔ e ∈ connected env w ∨
      e = .getNetwork env.channel true ∨ e = .getContract env.chaincode := by
  simp [resolved]

/-- C1: in every run of `main`, the contract calls issued are a prefix of
`ApplyForLoan`, `ApproveLoan`, `MakeRepayment`, `CheckLoanBalance`; every call
before the last one issued succeeded, so a failing call is the last call; no
call is issued twice; when no call failed, either the contract was never
obtained or all four calls were issued; and when `ApproveLoan` fails,
`MakeRepayment` and `CheckLoanBalance` are not called. -/
theorem calls_stop_at_first_failure (fs : Float64Sem) (env : Env) :
    (contractCalls (main fs env).events).map Prod.fst <+: flowCalls ∧
    (∀ x ∈ (contractCalls (main fs env).events).dropLast, x.2 = true) ∧
    ((contractCalls (main fs env).events).map Prod.fst).Nodup ∧
    ((∀ x ∈ contractCalls (main fs env).events, x.2 = true) →
      (∀ n, Event.getContract n ∉ (main fs env).events) ∨
        (contractCalls (main fs env).events).map Prod.fst = flowCalls) ∧
    ((approveCall, false) ∈ contractCalls (main fs env).events →
      ∀ ok, (repayCall, ok) ∉ contractCalls (main fs env).events ∧
        (balanceCall, ok) ∉ contractCalls (main fs env).events) := by
  have h := main_run fs env
  generalize main fs env = r at h
  cases h
  all_goals simp only [contractCalls_resolved, contractCalls_connected, contractCalls_provision,
    contractCalls_append, contractCalls, println, List.append_nil, List.nil_append]
  all_goals refine ⟨by decide, by decide, by decide, ?_, by decide⟩
  case setenvFailed => exact fun _ => .inl (by simp)
  case walletFailed => exact fun _ => .inl (by simp)
  case provisionFailed w e h0 hw hp =>
    refine fun _ => .inl (fun n hn => ?_)
    obtain ⟨id, hid⟩ := provision_events env w _ hn
    cases hid
  case connectFailed w e h0 hw hp hc =>
    refine fun _ => .inl (fun n hn => ?_)
    rcases List.mem_append.1 hn with hn | hn
    · obtain ⟨id, hid⟩ := provision_events env w _ hn
      cases hid
    · simp at hn
  case networkFailed w e hs hn =>
    refine fun _ => .inl (fun n hn => ?_)
    rcases List.mem_append.1 hn with hn | hn
    · rcases (mem_connected env w _).1 hn with ⟨id, hid, _⟩ | hn
      · cases hid
      · cases hn
    · simp at hn
  case applyFailed => exact fun h => absurd h (by decide)
  case approveFailed => exact fun h => absurd h (by decide)
  case repayFailed => exact fun h => absurd h (by decide)
  case balanceFailed => exact fun h => absurd h (by decide)
  case decodeFailed => exact fun _ => .inr (by decide)
  case finished => exact fun _ => .inr (by decide)

/-- C2: when the steps up to the flow succeed (environment setup, wallet,
provisioning, connect, `GetNetwork`) and every contract call issued succeeds,
the contract receives exactly four calls, each once and in this order: submit
`ApplyForLoan("loan1","John Doe","5000","12","5.5")`, submit
`ApproveLoan("loan1","Approved")`, submit `MakeRepayment("loan1","1000")`,
evaluate `CheckLoanBalance("loan1")`. -/
theorem successful_run_calls (fs : Float64Sem) (env : Env) (wallet : Wallet)
    (hreach : ReachesFlow env wallet)
    (hcalls : ∀ x ∈ contractCalls (main fs env).events, x.2 = true) :
    contractCalls (main fs env).events =
      [(⟨.submit, "ApplyForLoan", ["loan1", "John Doe", "5000", "12", "5.5"]⟩, true),
       (⟨.submit, "ApproveLoan", ["loan1", "Approved"]⟩, true),
       (⟨.submit, "MakeRepayment", ["loan1", "1000"]⟩, true),
       (⟨.evaluate, "CheckLoanBalance", ["loan1"]⟩, true)] := by
  obtain ⟨⟨h0, hw, hp, u, hc⟩, u2, hn⟩ := hreach
  have h := main_run fs env
  generalize main fs env = r at h hcalls
  cases h
  case setenvFailed e h => rw [h0] at h; cases h
  case walletFailed e _ h => rw [hw] at h; cases h
  case provisionFailed w e _ hw2 h =>
    rw [hw] at hw2; cases hw2; rw [hp] at h; cases h
  case connectFailed w e _ hw2 _ h =>
    rw [hw] at hw2; cases hw2; rw [hc] at h; cases h
  case networkFailed w e _ h => rw [hn] at h; cases h
  all_goals simp only [contractCalls_resolved, contractCalls_append, contractCalls, println,
    List.append_nil, List.nil_append] at hcalls ⊢
  case applyFailed => exact absurd hcalls (by decide)
  case approveFailed => exact absurd hcalls (by decide)
  case repayFailed => exact absurd hcalls (by decide)
  case balanceFailed => exact absurd hcalls (by decide)
  case decodeFailed => rfl
  case finished => rfl

/-- Witness for C2: the environment in which every external call succeeds. -/
theorem successful_run_calls_witness :
    contractCalls (main decimalFloat happyEnv).events =
      [(⟨.submit, "ApplyForLoan", ["loan1", "John Doe", "5000", "12", "5.5"]⟩, true),
       (⟨.submit, "ApproveLoan", ["loan1", "Approved"]⟩, true),
       (⟨.submit, "MakeRepayment", ["loan1", "1000"]⟩, true),
       (⟨.evaluate, "CheckLoanBalance", ["loan1"]⟩, true)] :=
  successful_run_calls decimalFloat happyEnv emptyWallet
    ⟨⟨rfl, rfl, by decide, (), rfl⟩, (), rfl⟩ (by decide)

/-- C9: in every run of `main` in which the call
`EvaluateTransaction("CheckLoanBalance","loan1")` fails, the process ends with
`Failed to get loan balance` carrying the error the contract returned, and
`json.Unmarshal` is never called; and whenever the process ends with
`Failed to unmarshal loan`, the evaluate call had succeeded and the decoding
was the step that failed. -/
theorem query_failure_precedes_decode (fs : Float64Sem) (env : Env) :
    (Event.call balanceCall false ∈ (main fs env).events →
      (∃ e, env.loanContract [applyCall, approveCall, repayCall] balanceCall = .error e ∧
        (main fs env).exit = .fatal "Failed to get loan balance: %v" (.ext e)) ∧
      ∀ ok, Event.unmarshal ok ∉ (main fs env).events) ∧
    (∀ e, (main fs env).exit = .fatal "Failed to unmarshal loan: %v" e →
      Event.call balanceCall true ∈ (main fs env).events ∧
      Event.call balanceCall false ∉ (main fs env).events ∧
      Event.unmarshal false ∈ (main fs env).events) := by
  have h := main_run fs env
  generalize main fs env = r at h
  have hput : ∀ (w : Wallet) (x : Event), (∀ id, x ≠ .put "appUser" id) →
      x ∉ (provision env w).events := by
    intro w x hx hmem
    obtain ⟨id, hid⟩ := provision_events env w x hmem
    exact hx id hid
  cases h
  case balanceFailed w e hf h =>
    refine ⟨fun _ => ⟨⟨e, h, rfl⟩, fun ok hm => ?_⟩, fun e2 he => ?_⟩
    · simp [mem_resolved, mem_connected, println] at hm
    · simp at he
  case decodeFailed w result e hf h hu =>
    refine ⟨fun hm => ?_, fun e2 he => ⟨?_, ?_, ?_⟩⟩
    · simp [mem_resolved, mem_connected, println, balanceCall, applyCall, approveCall,
        repayCall] at hm
    · simp
    · simp [mem_resolved, mem_connected, println, balanceCall, applyCall, approveCall,
        repayCall]
    · simp
  all_goals refine ⟨fun hm => absurd hm ?_, fun e2 he => absurd he ?_⟩
  all_goals first
    | (simp [mem_resolved, mem_connected, println, balanceCall, applyCall, approveCall,
        repayCall]; done)
    | exact hput _ _ (by simp)
    | (simp only [List.mem_append, not_or]; exact ⟨hput _ _ (by simp), by simp⟩)

/-- Witness for C9: a contract that rejects the balance query. -/
theorem query_failure_precedes_decode_witness :
    Event.call balanceCall false ∈ (main decimalFloat unknownLoanEnv).events ∧
    (main decimalFloat unknownLoanEnv).exit =
      .fatal "Failed to get loan balance: %v" (.ext "rejected") ∧
    ∀ ok, Event.unmarshal ok ∉ (main decimalFloat unknownLoanEnv).events :=
  ⟨by decide, by decide,
    ((query_failure_precedes_decode decimalFloat unknownLoanEnv).1 (by decide)).2⟩

/-- X1: when `main` returns, the deferred `Close` has been called exactly
once, as the last call of the run. -/
theorem close_once_when_main_returns (fs : Float64Sem) (env : Env)
    (hret : (main fs env).exit = .returned) :
    closeCount (main fs env).events = 1 ∧ (main fs env).events.getLast? = some .close := by
  have h := main_run fs env
  generalize main fs env = r at h hret
  cases h
  case finished w result loan hf h hu =>
    have hc : closeCount (resolved env w) = 0 := by
      refine List.count_eq_zero.2 (fun hm => ?_)
      rcases (mem_resolved env w _).1 hm with hm | hm | hm
      · rcases (mem_connected env w _).1 hm with ⟨id, hid, _⟩ | hm
        · cases hid
        · cases hm
      · cases hm
      · cases hm
    constructor
    · simp only [closeCount] at hc ⊢
      rw [List.count_append, hc]
      simp [println, List.count_cons]
    · simp [List.getLast?_append]
  all_goals simp at hret

/-- When the process ends through `log.Fatalf`, the deferred `Close` has not
been called, whether or not the gateway was connected. -/
theorem close_skipped_on_fatal (fs : Float64Sem) (env : Env) (format : String) (err : GoError)
    (hfatal : (main fs env).exit = .fatal format err) :
    closeCount (main fs env).events = 0 := by
  have h := main_run fs env
  generalize main fs env = r at h hfatal
  have hput : ∀ (w : Wallet), Event.close ∉ (provision env w).events := by
    intro w hmem
    obtain ⟨id, hid⟩ := provision_events env w _ hmem
    cases hid
  refine List.count_eq_zero.2 ?_
  cases h
  case finished => simp at hfatal
  all_goals first
    | (simp [mem_resolved, mem_connected, println]; done)
    | exact hput _
    | (simp only [List.mem_append, not_or]; exact ⟨hput _, by simp⟩)

/-- C3, the code at a failing input: `Connect` succeeds, `GetNetwork` fails, and the
process ends through `log.Fatalf` without a call of `Close`. -/
theorem close_skipped_when_network_fails :
    Event.connect true ∈ (main decimalFloat networkDownEnv).events ∧
    (main decimalFloat networkDownEnv).exit =
      .fatal "Failed to get network: %v" (.ext "channel not found") ∧
    closeCount (main decimalFloat networkDownEnv).events = 0 := by
  decide

/-- Witness for X1: the run in which every external call succeeds. -/
theorem close_once_when_main_returns_witness :
    (main decimalFloat happyEnv).exit = .returned ∧
    closeCount (main decimalFloat happyEnv).events = 1 ∧
    (main decimalFloat happyEnv).events.getLast? = some .close :=
  ⟨by decide, close_once_when_main_returns decimalFloat happyEnv (by decide)⟩

/-! ## Channel and chaincode names (lines 63-78) -/

theorem channel_eq (env : Env) :
    env.channel =
      match env.vars "CHANNEL_NAME" with
      | some v => if v = "" then "mychannel" else v
      | none => "mychannel" := by
  have hne : ¬ ("CHANNEL_NAME" = "DISCOVERY_AS_LOCALHOST") := by decide
  simp only [Env.channel, channelName, getenv, setenv, if_neg hne]
  cases env.vars "CHANNEL_NAME" with
  | none => simp
  | some v => by_cases hv : v = "" <;> simp [hv]

theorem chaincode_eq (env : Env) :
    env.chaincode =
      match env.vars "CHAINCODE_NAME" with
      | some v => if v = "" then "loan" else v
      | none => "loan" := by
  have hne : ¬ ("CHAINCODE_NAME" = "DISCOVERY_AS_LOCALHOST") := by decide
  simp only [Env.chaincode, chaincodeName, getenv, setenv, if_neg hne]
  cases env.vars "CHAINCODE_NAME" with
  | none => simp
  | some v => by_cases hv : v = "" <;> simp [hv]

theorem getNetwork_event (fs : Float64Sem) (env : Env) (n : String) (ok : Bool)
    (hm : Event.getNetwork n ok ∈ (main fs env).events) : n = env.channel := by
  have h := main_run fs env
  generalize main fs env = r at h hm
  have hput : ∀ (w : Wallet), Event.getNetwork n ok ∉ (provision env w).events := by
    intro w hmem
    obtain ⟨id, hid⟩ := provision_events env w _ hmem
    cases hid
  cases h
  case setenvFailed => simp at hm
  case walletFailed => simp at hm
  case provisionFailed w _ _ _ _ => exact absurd hm (hput w)
  case connectFailed w _ _ _ _ _ =>
    simp only [List.mem_append] at hm
    rcases hm with hm | hm
    · exact absurd hm (hput w)
    · simp at hm
  all_goals
    simp [mem_resolved, mem_connected, println] at hm
    exact hm.1

theorem getContract_event (fs : Float64Sem) (env : Env) (n : String)
    (hm : Event.getContract n ∈ (main fs env).events) : n = env.chaincode := by
  have h := main_run fs env
  generalize main fs env = r at h hm
  have hput : ∀ (w : Wallet), Event.getContract n ∉ (provision env w).events := by
    intro w hmem
    obtain ⟨id, hid⟩ := provision_events env w _ hmem
    cases hid
  cases h
  case setenvFailed => simp at hm
  case walletFailed => simp at hm
  case provisionFailed w _ _ _ _ => exact absurd hm (hput w)
  case connectFailed w _ _ _ _ _ =>
    simp only [List.mem_append] at hm
    rcases hm with hm | hm
    · exact absurd hm (hput w)
    · simp at hm
  case networkFailed => simp [mem_connected] at hm
  all_goals
    simp [mem_resolved, mem_connected, println] at hm
    exact hm

/-- C5, as the code has it: the channel name passed to `GetNetwork` is the value
of `CHANNEL_NAME` when that variable is set to a non-empty string, and
`mychannel` when it is unset or set to the empty string; the contract name
passed to `GetContract` is the value of `CHAINCODE_NAME` when set to a
non-empty string, and `loan` when unset or empty. Each name is a function of
its own variable alone. `GetNetwork` is called in every run that connects, and
`GetContract` in every run in which `GetNetwork` succeeds. -/
theorem names_from_environment (fs : Float64Sem) (env : Env) :
    (∀ n ok, Event.getNetwork n ok ∈ (main fs env).events →
      n = match env.vars "CHANNEL_NAME" with
          | some v => if v = "" then "mychannel" else v
          | none => "mychannel") ∧
    (∀ n, Event.getContract n ∈ (main fs env).events →
      n = match env.vars "CHAINCODE_NAME" with
          | some v => if v = "" then "loan" else v
          | none => "loan") ∧
    (∀ w, ReachesSession env w → ∃ ok, Event.getNetwork env.channel ok ∈ (main fs env).events) ∧
    (∀ w, ReachesFlow env w → Event.getContract env.chaincode ∈ (main fs env).events) := by
  refine ⟨fun n ok hm => ?_, fun n hm => ?_, fun w hs => ?_, fun w hf => ?_⟩
  · rw [← channel_eq]
    exact getNetwork_event fs env n ok hm
  · rw [← chaincode_eq]
    exact getContract_event fs env n hm
  · obtain ⟨h0, hw, hp, u, hc⟩ := hs
    have h := main_run fs env
    generalize main fs env = r at h
    cases h
    case setenvFailed e h => rw [h0] at h; cases h
    case walletFailed e _ h => rw [hw] at h; cases h
    case provisionFailed w2 e _ hw2 h =>
      rw [hw] at hw2; cases hw2; rw [hp] at h; cases h
    case connectFailed w2 e _ hw2 _ h =>
      rw [hw] at hw2; cases hw2; rw [hc] at h; cases h
    case networkFailed => exact ⟨false, by simp⟩
    all_goals exact ⟨true, by simp [mem_resolved]⟩
  · obtain ⟨⟨h0, hw, hp, u, hc⟩, u2, hn⟩ := hf
    have h := main_run fs env
    generalize main fs env = r at h
    cases h
    case setenvFailed e h => rw [h0] at h; cases h
    case walletFailed e _ h => rw [hw] at h; cases h
    case provisionFailed w2 e _ hw2 h =>
      rw [hw] at hw2; cases hw2; rw [hp] at h; cases h
    case connectFailed w2 e _ hw2 _ h =>
      rw [hw] at hw2; cases hw2; rw [hc] at h; cases h
    case networkFailed w2 e _ h => rw [hn] at h; cases h
    all_goals simp [mem_resolved]

/-- Witness for C5: with `CHANNEL_NAME=loans` and `CHAINCODE_NAME` unset, the
program asks for the network `loans` and the contract `loan`. -/
theorem names_from_environment_witness :
    (∃ ok, Event.getNetwork "loans" ok ∈ (main decimalFloat namedChannelEnv).events) ∧
    Event.getContract "loan" ∈ (main decimalFloat namedChannelEnv).events :=
  ⟨(names_from_environment decimalFloat namedChannelEnv).2.2.1 emptyWallet
      ⟨rfl, rfl, by decide, (), rfl⟩,
    (names_from_environment decimalFloat namedChannelEnv).2.2.2 emptyWallet
      ⟨⟨rfl, rfl, by decide, (), rfl⟩, (), rfl⟩⟩

/-- Counterexample to C5 as stated: with `CHANNEL_NAME` set to the empty
string, the name passed to `GetNetwork` is `mychannel`, not the value of the
variable. -/
theorem empty_channel_name_falls_back :
    emptyChannelEnv.vars "CHANNEL_NAME" = some "" ∧
    Event.getNetwork "mychannel" true ∈ (main decimalFloat emptyChannelEnv).events ∧
    ∀ ok, Event.getNetwork "" ok ∉ (main decimalFloat emptyChannelEnv).events := by
  decide

/-! ## `populateWallet` and the provisioning step -/

theorem populateWallet_of_reads (env : Env) (wallet : Wallet) (cert name key : String)
    (hc : env.readFile certPath = .ok cert) (hd : env.readDir keyDir = .ok [name])
    (hk : env.readFile (filepathJoin [keyDir, name]) = .ok key) :
    populateWallet env wallet =
      ⟨(wallet.Put env "appUser" ⟨"Org1MSP", cert, key⟩).1,
        (wallet.Put env "appUser" ⟨"Org1MSP", cert, key⟩).2,
        [.put "appUser" ⟨"Org1MSP", cert, key⟩]⟩ := by
  have hk2 : env.readFile (filepathJoin [keyDir, [name].get ⟨0, by simp⟩]) = .ok key := hk
  simp only [populateWallet, hc, hd]
  rw [dif_neg (by simp)]
  simp only [hk2, NewX509Identity]

theorem populateWallet_of_key_error (env : Env) (wallet : Wallet) (cert name e : String)
    (hc : env.readFile certPath = .ok cert) (hd : env.readDir keyDir = .ok [name])
    (hk : env.readFile (filepathJoin [keyDir, name]) = .error e) :
    populateWallet env wallet = ⟨some (.ext e), wallet, []⟩ := by
  have hk2 : env.readFile (filepathJoin [keyDir, [name].get ⟨0, by simp⟩]) = .error e := hk
  simp only [populateWallet, hc, hd]
  rw [dif_neg (by simp)]
  simp only [hk2]

theorem populateWallet_of_count (env : Env) (wallet : Wallet) (cert : String)
    (files : List String) (hc : env.readFile certPath = .ok cert)
    (hd : env.readDir keyDir = .ok files) (hn : files.length ≠ 1) :
    populateWallet env wallet =
      ⟨some (.errorf "keystore folder should have contain one file"), wallet, []⟩ := by
  simp only [populateWallet, hc, hd]
  rw [dif_pos hn]

theorem populateWallet_of_dir_error (env : Env) (wallet : Wallet) (cert e : String)
    (hc : env.readFile certPath = .ok cert) (hd : env.readDir keyDir = .error e) :
    populateWallet env wallet = ⟨some (.ext e), wallet, []⟩ := by
  simp only [populateWallet, hc, hd]

theorem populateWallet_of_cert_error (env : Env) (wallet : Wallet) (e : String)
    (hc : env.readFile certPath = .error e) :
    populateWallet env wallet = ⟨some (.ext e), wallet, []⟩ := by
  simp only [populateWallet, hc]

theorem put_err (env : Env) (w : Wallet) (label : String) (id : Identity) :
    (w.Put env label id).1 = none ↔ env.putErr = none := by
  unfold Wallet.Put
  cases env.putErr <;> simp

/-- C4, as the code has it: with the certificate and the keystore listing
readable, `populateWallet` fails with the key-material error exactly when the
keystore holds zero or at least two entries; when it holds exactly one entry,
`populateWallet` goes on to read that entry and store the identity, and
succeeds exactly when that read and the wallet `Put` succeed; when the read
fails it returns the error of the read, without a `Put` and with the wallet
unchanged, and when the `Put` fails it returns the error of the `Put`. -/
theorem keystore_error_iff (env : Env) (wallet : Wallet) (cert : String) (files : List String)
    (hc : env.readFile certPath = .ok cert) (hd : env.readDir keyDir = .ok files) :
    ((populateWallet env wallet).err =
        some (.errorf "keystore folder should have contain one file") ↔
      files.length = 0 ∨ 2 ≤ files.length) ∧
    (∀ name, files = [name] →
      ((populateWallet env wallet).err = none ↔
        (∃ key, env.readFile (filepathJoin [keyDir, name]) = .ok key) ∧ env.putErr = none) ∧
      (∀ e, env.readFile (filepathJoin [keyDir, name]) = .error e →
        populateWallet env wallet = ⟨some (.ext e), wallet, []⟩) ∧
      (∀ key e, env.readFile (filepathJoin [keyDir, name]) = .ok key → env.putErr = some e →
        (populateWallet env wallet).err = some (.ext e) ∧
        (populateWallet env wallet).events = [.put "appUser" ⟨"Org1MSP", cert, key⟩]) ∧
      (∀ key, env.readFile (filepathJoin [keyDir, name]) = .ok key → env.putErr = none →
        populateWallet env wallet =
          ⟨none, wallet.bind "appUser" ⟨"Org1MSP", cert, key⟩,
            [.put "appUser" ⟨"Org1MSP", cert, key⟩]⟩)) := by
  refine ⟨?_, ?_⟩
  · by_cases hn : files.length ≠ 1
    · rw [populateWallet_of_count env wallet cert files hc hd hn]
      simp only [true_iff]
      omega
    · have h1 : files.length = 1 := not_not.1 hn
      obtain ⟨name, rfl⟩ := List.length_eq_one.1 h1
      constructor
      · intro h
        cases hk : env.readFile (filepathJoin [keyDir, name]) with
        | error e =>
          rw [populateWallet_of_key_error env wallet cert name e hc hd hk] at h
          cases h
        | ok key =>
          rw [populateWallet_of_reads env wallet cert name key hc hd hk] at h
          unfold Wallet.Put at h
          cases hp : env.putErr <;> simp [hp] at h
      · intro h
        simp at h
  · rintro name rfl
    refine ⟨?_, fun e hk => populateWallet_of_key_error env wallet cert name e hc hd hk,
      fun key e hk hp => ?_, fun key hk hp => ?_⟩
    · cases hk : env.readFile (filepathJoin [keyDir, name]) with
      | error e =>
        rw [populateWallet_of_key_error env wallet cert name e hc hd hk]
        simp
      | ok key =>
        rw [populateWallet_of_reads env wallet cert name key hc hd hk]
        simp [put_err]
    · rw [populateWallet_of_reads env wallet cert name key hc hd hk]
      simp [Wallet.Put, hp]
    · rw [populateWallet_of_reads env wallet cert name key hc hd hk]
      simp [Wallet.Put, hp]

/-- Witness for C4: the bundle with one key file. -/
theorem keystore_error_iff_witness :
    happyEnv.readFile certPath = .ok "CERT" ∧ happyEnv.readDir keyDir = .ok ["priv_sk"] ∧
    ((populateWallet happyEnv emptyWallet).err =
        some (.errorf "keystore folder should have contain one file") ↔
      ["priv_sk"].length = 0 ∨ 2 ≤ ["priv_sk"].length) ∧
    (populateWallet happyEnv emptyWallet).err = none :=
  ⟨rfl, rfl, (keystore_error_iff happyEnv emptyWallet "CERT" ["priv_sk"] rfl rfl).1,
    ((keystore_error_iff happyEnv emptyWallet "CERT" ["priv_sk"] rfl rfl).2 "priv_sk" rfl).1.2
      ⟨⟨"KEY", rfl⟩, rfl⟩⟩

/-- Counterexample to C4 as stated: the certificate and the keystore listing are
readable and the keystore holds exactly one entry, yet `populateWallet` fails,
with the error of reading that entry. -/
theorem single_entry_unreadable_fails :
    unreadableKeyEnv.readFile certPath = .ok "CERT" ∧
    unreadableKeyEnv.readDir keyDir = .ok ["priv_sk"] ∧
    (populateWallet unreadableKeyEnv emptyWallet).err = some (.ext "is a directory") :=
  ⟨rfl, rfl, rfl⟩

/-- C10: `populateWallet` touches the wallet only at its last step. If the
certificate read fails, the keystore listing fails, the keystore does not hold
exactly one entry, or the key read fails, it returns an error, performs no
`Put` and leaves the wallet as it was. A `Put` is performed only when all four
checks have passed, and it is the single `Put` of alias `appUser` with
organization `Org1MSP`, the certificate read and the key read. A run without
a `Put` leaves the wallet unchanged. -/
theorem populateWallet_atomic (env : Env) (wallet : Wallet) :
    (((∃ e, env.readFile certPath = .error e) ∨ (∃ e, env.readDir keyDir = .error e) ∨
        (∃ files, env.readDir keyDir = .ok files ∧ files.length ≠ 1) ∨
        (∃ name e, env.readDir keyDir = .ok [name] ∧
          env.readFile (filepathJoin [keyDir, name]) = .error e)) →
      (populateWallet env wallet).err ≠ none ∧ (populateWallet env wallet).events = [] ∧
        (populateWallet env wallet).wallet = wallet) ∧
    (∀ label id, Event.put label id ∈ (populateWallet env wallet).events →
      ∃ cert name key, env.readFile certPath = .ok cert ∧ env.readDir keyDir = .ok [name] ∧
        env.readFile (filepathJoin [keyDir, name]) = .ok key ∧
        label = "appUser" ∧ id = ⟨"Org1MSP", cert, key⟩ ∧
        (populateWallet env wallet).events = [.put "appUser" ⟨"Org1MSP", cert, key⟩]) ∧
    ((populateWallet env wallet).events = [] → (populateWallet env wallet).wallet = wallet) := by
  cases hc : env.readFile certPath with
  | error e =>
    rw [populateWallet_of_cert_error env wallet e hc]
    simp
  | ok cert =>
    cases hd : env.readDir keyDir with
    | error e =>
      rw [populateWallet_of_dir_error env wallet cert e hc hd]
      simp
    | ok files =>
      by_cases hn : files.length ≠ 1
      · rw [populateWallet_of_count env wallet cert files hc hd hn]
        simp
      · have h1 : files.length = 1 := not_not.1 hn
        obtain ⟨name, rfl⟩ := List.length_eq_one.1 h1
        cases hk : env.readFile (filepathJoin [keyDir, name]) with
        | error e =>
          rw [populateWallet_of_key_error env wallet cert name e hc hd hk]
          simp
        | ok key =>
          rw [populateWallet_of_reads env wallet cert name key hc hd hk]
          refine ⟨?_, ?_, ?_⟩
          · rintro (⟨e, he⟩ | ⟨e, he⟩ | ⟨files, hf, hlen⟩ | ⟨name2, e, hd2, hk2⟩)
            · cases he
            · cases he
            · cases hf
              simp at hlen
            · cases hd2
              rw [hk] at hk2
              cases hk2
          · intro label id hm
            simp only [List.mem_singleton, Event.put.injEq] at hm
            exact ⟨cert, name, key, rfl, rfl, hk, hm.1, hm.2, rfl⟩
          · intro h
            cases h

/-- Witness for C10: with an unreadable key file `populateWallet` fails without
a `Put`; with the readable bundle it performs the one `Put`. -/
theorem populateWallet_atomic_witness :
    ((populateWallet unreadableKeyEnv emptyWallet).err ≠ none ∧
      (populateWallet unreadableKeyEnv emptyWallet).events = [] ∧
      (populateWallet unreadableKeyEnv emptyWallet).wallet = emptyWallet) ∧
    (populateWallet happyEnv emptyWallet).events = [.put "appUser" ⟨"Org1MSP", "CERT", "KEY"⟩] :=
  ⟨(populateWallet_atomic unreadableKeyEnv emptyWallet).1
      (.inr (.inr (.inr ⟨"priv_sk", "is a directory", rfl, rfl⟩))),
    rfl⟩

theorem lookupField_none_of_fold (k : String) (hk : ∀ f : Field, foldName k ≠ foldName f.name) :
    lookupField k = none := by
  have h1 : Field.all.find? (fun f => f.name == k) = none := by
    rw [List.find?_eq_none]
    intro f _ hf
    have : f.name = k := by simpa using hf
    exact hk f (by rw [this])
  have h2 : Field.all.find? (fun f => foldName f.name == foldName k) = none := by
    rw [List.find?_eq_none]
    intro f _ hf
    have : foldName f.name = foldName k := by simpa using hf
    exact hk f this.symm
  simp only [lookupField, h1, h2]

theorem setField_unknown (fs : Float64Sem) (loan : Loan fs.F) (k : String) (v : JSON)
    (hk : lookupField k = none) : setField fs loan k v = .ok loan := by
  simp only [setField, hk]

theorem unmarshalObject_append (fs : Float64Sem) (a b : List (String × JSON)) (loan : Loan fs.F) :
    unmarshalObject fs (a ++ b) loan = unmarshalObject fs a loan >>= unmarshalObject fs b := by
  simp only [unmarshalObject, List.foldlM_append]
  rfl

theorem unmarshalObject_cons (fs : Float64Sem) (kv : String × JSON) (b : List (String × JSON))
    (loan : Loan fs.F) :
    unmarshalObject fs (kv :: b) loan = setField fs loan kv.1 kv.2 >>= unmarshalObject fs b := by
  simp only [unmarshalObject, List.foldlM_cons]
  rfl

/-- C7: a JSON object that decodes into the Loan `L` still decodes, and into the
same `L`, after one further member is added anywhere in it whose key matches no
field of `Loan` even ignoring case, whatever the value of that member. -/
theorem unknown_member_ignored (fs : Float64Sem) (pre post : List (String × JSON))
    (k : String) (v : JSON) (L : Loan fs.F)
    (hk : ∀ f : Field, foldName k ≠ foldName f.name)
    (hL : unmarshal fs (some (.obj (pre ++ post))) = .ok L) :
    unmarshal fs (some (.obj (pre ++ (k, v) :: post))) = .ok L := by
  have hnone := lookupField_none_of_fold k hk
  simp only [unmarshal] at hL ⊢
  rw [unmarshalObject_append] at hL ⊢
  cases hpre : unmarshalObject fs pre (Loan.zero fs) with
  | error e => rw [hpre] at hL; cases hL
  | ok l =>
    rw [hpre] at hL
    have hstep : unmarshalObject fs ((k, v) :: post) l = unmarshalObject fs post l := by
      rw [unmarshalObject_cons, setField_unknown fs l k v hnone]
      rfl
    change unmarshalObject fs ((k, v) :: post) l = .ok L
    rw [hstep]
    exact hL

/-- Witness for C7: the member `Collateral` added in the middle of `loanRecord`. -/
theorem unknown_member_ignored_witness :
    unmarshal decimalFloat (some (.obj (loanMembers.take 3 ++ loanMembers.drop 3))) =
      .ok decodedLoan ∧
    unmarshal decimalFloat
        (some (.obj (loanMembers.take 3 ++ ("Collateral", .str "none") :: loanMembers.drop 3))) =
      .ok decodedLoan :=
  ⟨rfl, unknown_member_ignored decimalFloat (loanMembers.take 3) (loanMembers.drop 3)
    "Collateral" (.str "none") decodedLoan (fun f => by cases f <;> decide) rfl⟩

theorem decodeElems_wellTyped (fs : Float64Sem) (field : String) (xs : List JSON)
    (backing : List fs.F)
    (h : xs.all (fun x =>
      match x with
      | .num n => (fs.parseFloat n).isSome
      | _ => false) = true) :
    ∃ ys, decodeElems fs field xs backing = Except.ok ys := by
  induction xs generalizing backing with
  | nil => exact ⟨[], rfl⟩
  | cons x rest ih =>
    simp only [List.all_cons, Bool.and_eq_true] at h
    obtain ⟨ys, hys⟩ := ih backing.tail h.2
    cases x with
    | num n =>
      have hn := h.1
      simp only at hn
      obtain ⟨y, hy⟩ := Option.isSome_iff_exists.1 hn
      have hx : decodeFloat fs field (.num n) (backing.headD fs.zero) = .ok y := by
        simp only [decodeFloat, hy]
      exact ⟨y :: ys, by simp only [decodeElems, hx, hys]⟩
    | _ => simp at h

theorem setField_wellTyped (fs : Float64Sem) (loan : Loan fs.F) (kv : String × JSON)
    (hwt : memberWellTyped fs kv = true) (hout : lookupField kv.1 ≠ some .Outstanding) :
    ∃ l2, setField fs loan kv.1 kv.2 = .ok l2 ∧ l2.Outstanding = loan.Outstanding := by
  obtain ⟨k, v⟩ := kv
  simp only [memberWellTyped] at hwt
  simp only at hout
  cases hf : lookupField k with
  | none => exact ⟨loan, by simp only [setField, hf], rfl⟩
  | some f =>
    rw [hf] at hwt
    simp only at hwt
    cases f with
    | Outstanding => exact absurd hf hout
    | LoanID =>
      cases v <;> simp [wellTyped] at hwt
      simp only [setField, hf, decodeString, Except.map]
      exact ⟨_, rfl, rfl⟩
    | ApplicantName =>
      cases v <;> simp [wellTyped] at hwt
      simp only [setField, hf, decodeString, Except.map]
      exact ⟨_, rfl, rfl⟩
    | Status =>
      cases v <;> simp [wellTyped] at hwt
      simp only [setField, hf, decodeString, Except.map]
      exact ⟨_, rfl, rfl⟩
    | LoanAmount =>
      cases v <;> simp [wellTyped] at hwt
      obtain ⟨y, hy⟩ := Option.isSome_iff_exists.1 hwt
      simp only [setField, hf, decodeFloat, hy, Except.map]
      exact ⟨_, rfl, rfl⟩
    | InterestRate =>
      cases v <;> simp [wellTyped] at hwt
      obtain ⟨y, hy⟩ := Option.isSome_iff_exists.1 hwt
      simp only [setField, hf, decodeFloat, hy, Except.map]
      exact ⟨_, rfl, rfl⟩
    | TermMonths =>
      cases v with
      | num n =>
        cases n with
        | int n =>
          simp only [wellTyped, decide_eq_true_eq] at hwt
          simp only [setField, hf, decodeInt, if_pos hwt, Except.map]
          exact ⟨_, rfl, rfl⟩
        | dec m e => simp [wellTyped] at hwt
      | _ => simp [wellTyped] at hwt
    | Repayments =>
      cases v with
      | arr xs =>
        simp only [wellTyped] at hwt
        cases xs with
        | nil =>
          simp only [setField, hf, decodeFloatSlice, Except.map]
          exact ⟨_, rfl, rfl⟩
        | cons x rest =>
          obtain ⟨ys, hys⟩ := decodeElems_wellTyped fs "Repayments" (x :: rest)
            (match loan.Repayments with
              | none => []
              | some s => s.elems ++ s.spare) hwt
          simp only [setField, hf, decodeFloatSlice, hys, Except.map]
          exact ⟨_, rfl, rfl⟩
      | _ => simp [wellTyped] at hwt

theorem unmarshalObject_wellTyped (fs : Float64Sem) (kvs : List (String × JSON))
    (loan : Loan fs.F)
    (hwt : ∀ kv ∈ kvs, memberWellTyped fs kv = true)
    (hout : ∀ kv ∈ kvs, lookupField kv.1 ≠ some .Outstanding) :
    ∃ L, unmarshalObject fs kvs loan = .ok L ∧ L.Outstanding = loan.Outstanding := by
  induction kvs generalizing loan with
  | nil => exact ⟨loan, rfl, rfl⟩
  | cons kv rest ih =>
    obtain ⟨l2, h2, ho2⟩ := setField_wellTyped fs loan kv (hwt kv (List.mem_cons_self _ _))
      (hout kv (List.mem_cons_self _ _))
    obtain ⟨L, hL, hoL⟩ := ih l2 (fun x hx => hwt x (List.mem_cons_of_mem _ hx))
      (fun x hx => hout x (List.mem_cons_of_mem _ hx))
    refine ⟨L, ?_, hoL.trans ho2⟩
    rw [unmarshalObject_cons, h2]
    exact hL

/-- C6, as the code has it: a JSON object with no member for `Outstanding`
(under the decoder's matching of keys, which ignores case) whose members are
all well-typed for the fields they name is decoded without error, and the
`Outstanding` of the resulting Loan is the zero value. -/
theorem missing_outstanding_decodes_to_zero (fs : Float64Sem) (kvs : List (String × JSON))
    (hout : ∀ kv ∈ kvs, lookupField kv.1 ≠ some .Outstanding)
    (hwt : ∀ kv ∈ kvs, memberWellTyped fs kv = true) :
    ∃ L, unmarshal fs (some (.obj kvs)) = .ok L ∧ L.Outstanding = fs.zero := by
  obtain ⟨L, hL, ho⟩ := unmarshalObject_wellTyped fs kvs (Loan.zero fs) hwt hout
  exact ⟨L, hL, ho⟩

/-- Witness for C6: the record of the query without its `Outstanding` member. -/
theorem missing_outstanding_decodes_to_zero_witness :
    (∀ kv ∈ membersWithoutOutstanding, lookupField kv.1 ≠ some .Outstanding) ∧
    (∀ kv ∈ membersWithoutOutstanding, memberWellTyped decimalFloat kv = true) ∧
    ∃ L, unmarshal decimalFloat (some (.obj membersWithoutOutstanding)) = .ok L ∧
      L.Outstanding = decimalFloat.zero :=
  ⟨by decide, by decide,
    missing_outstanding_decodes_to_zero decimalFloat membersWithoutOutstanding
      (by decide) (by decide)⟩

/-- Counterexample to C6 as stated: the record of the query without its
`Outstanding` member, every other field present and well-typed, is decoded
without error; the Loan produced has `Outstanding` zero. -/
theorem missing_outstanding_accepted :
    membersWithoutOutstanding.map Prod.fst =
      ["LoanID", "ApplicantName", "LoanAmount", "TermMonths", "InterestRate", "Status",
        "Repayments"] ∧
    unmarshal decimalFloat (some (.obj membersWithoutOutstanding)) =
      .ok { decodedLoan with Outstanding := (0, 0) } :=
  ⟨rfl, rfl⟩

theorem foldName_field_inj (f g : Field) (h : foldName f.name = foldName g.name) : f = g := by
  cases f <;> cases g <;> first | rfl | exact absurd h (by decide)

/-- X2: which field an object key sets. The key sets the field `f` exactly when
it equals the name of `f` ignoring case; so a key is skipped exactly when it
equals no field name ignoring case. -/
theorem lookupField_iff (k : String) (f : Field) :
    (lookupField k = some f ↔ foldName k = foldName f.name) ∧
    (lookupField k = none ↔ ∀ g : Field, foldName k ≠ foldName g.name) := by
  have hsome : ∀ g : Field, lookupField k = some g → foldName k = foldName g.name := by
    intro g hg
    unfold lookupField at hg
    split at hg
    · rename_i f2 h2
      have hn : f2.name = k := by simpa using List.find?_some h2
      cases hg
      rw [hn]
    · have hn := List.find?_some hg
      exact (by simpa using hn : foldName g.name = foldName k).symm
  have hnone : lookupField k = none → ∀ g : Field, foldName k ≠ foldName g.name := by
    intro hk g hg
    unfold lookupField at hk
    split at hk
    · cases hk
    · rw [List.find?_eq_none] at hk
      exact hk g (by cases g <;> simp [Field.all]) (by simpa using hg.symm)
  refine ⟨⟨hsome f, fun h => ?_⟩, ⟨hnone, lookupField_none_of_fold k⟩⟩
  cases hl : lookupField k with
  | none => exact absurd h (hnone hl f)
  | some g =>
    have hg := hsome g hl
    rw [foldName_field_inj g f (hg.symm.trans h)]

/-- A key that differs from a field name only in case is not an unknown key:
the member `outstanding` sets the field `Outstanding`. -/
theorem case_variant_key_sets_field :
    lookupField "outstanding" = some .Outstanding ∧
    unmarshal decimalFloat
        (some (.obj (membersWithoutOutstanding ++ [("outstanding", .num (.int 4000))]))) =
      .ok decodedLoan :=
  ⟨rfl, rfl⟩

/-- A repeated array member is decoded into the elements the slice holds: after
`"Repayments":[1000,2000]`, the member `"Repayments":[null]` leaves the one
element `1000`, and `2000` stays in the backing array past the length. -/
theorem repeated_array_member_reuses_elements :
    unmarshal decimalFloat
        (some (.obj [("Repayments", .arr [.num (.int 1000), .num (.int 2000)]),
          ("Repayments", .arr [.null])])) =
      .ok { Loan.zero decimalFloat with Repayments := some ⟨[(1000, 0)], [(2000, 0)]⟩ } :=
  rfl

end LoanClient
